import Mathlib

set_option autoImplicit false

/-!
Verification of the well time-series query service (`api/index.py`).

The service loads a JSON array of flat objects ("records") and serves a
filtered / aggregated time-series endpoint, a statistics endpoint and a
health check.  This file embeds the data model and the request handlers
as executable Lean definitions and proves the specified properties.

Modelling conventions:
* A JSON scalar is `JVal` (null, number, string).  Python reads JSON
  numbers as `int`/`float`; both are modelled as `ℚ`, which also matches
  Python's cross-type numeric equality (`1 == 1.0`).
* A Python dict is an association list `List (String × JVal)` with
  insertion order preserved; `dict.get` is first-match lookup.
* Python string comparison is code-point lexicographic, as is Lean's
  `String` order.
* Python's `round(x, 2)` is modelled as rounding `100 * x` to the nearest
  integer over `ℚ`; the exact tie-breaking of binary floats is not
  exercised by any property proved here.
* A request that raises an uncaught exception (surfaced by the framework
  as a 500 response) is modelled as `none`.
-/

/-- A JSON scalar value as stored in a record field. -/
inductive JVal : Type where
  | null : JVal
  | num : ℚ → JVal
  | str : String → JVal
deriving DecidableEq, Repr

/-- One dataset row: a flat JSON object, keys in insertion order. -/
abbrev Record : Type := List (String × JVal)

/-- Python `r.get(k, d)`: value of the first entry with key `k`, else `d`. -/
def getD (r : Record) (k : String) (d : JVal) : JVal :=
  (List.lookup k r).getD d

/-- The timestamp string the handler works with: `r.get("timestamp", "")`.
A present non-string timestamp is outside the well-formedness assumption
`tsWF` below and is mapped to the empty string here. -/
def tsOf (r : Record) : String :=
  match List.lookup "timestamp" r with
  | some (JVal.str s) => s
  | _ => ""

/-- Well-formedness used where the handler compares timestamps as strings:
the `timestamp` field, when present, holds a string. -/
def tsWF (r : Record) : Prop :=
  ∀ v, List.lookup "timestamp" r = some v → ∃ s, v = JVal.str s

instance (r : Record) : Decidable (tsWF r) := by
  unfold tsWF
  cases List.lookup "timestamp" r with
  | none => exact isTrue (by intro v h; cases h)
  | some v =>
    cases v with
    | null => exact isFalse (by intro h; rcases h _ rfl with ⟨s, hs⟩; cases hs)
    | num q => exact isFalse (by intro h; rcases h _ rfl with ⟨s, hs⟩; cases hs)
    | str s => exact isTrue (by intro v h; exact ⟨s, by cases h; rfl⟩)

/-- The validated `aggregation` query parameter (`^(minute|hour|day)$`). -/
inductive Agg : Type where
  | minute : Agg
  | hour : Agg
  | day : Agg
deriving DecidableEq, Repr

/-- The query parameters of `/api/well/timeseries` after FastAPI validation. -/
structure TSQuery : Type where
  well_id : Int
  start_time : Option String
  end_time : Option String
  class_id : Option Int
  aggregation : Agg
  limit : Nat
deriving Repr

/-- Python truthiness of an `Optional[str]`: `None` and `""` are falsy. -/
def strTruthy : Option String → Bool
  | none => false
  | some s => s ≠ ""

/-- Python `a < b` on strings: code-point lexicographic comparison,
taken on the underlying character lists. -/
def pyLt (a b : String) : Bool := decide (a.data < b.data)

/-- The filter loop body: a record survives iff none of the four `continue`
branches fires (well id mismatch, below `start_time`, above `end_time`,
class mismatch). -/
def keep (q : TSQuery) (r : Record) : Bool :=
  (getD r "well_id" JVal.null == JVal.num (q.well_id : ℚ))
  && !(strTruthy q.start_time && pyLt (tsOf r) (q.start_time.getD ""))
  && !(strTruthy q.end_time && pyLt (q.end_time.getD "") (tsOf r))
  && (match q.class_id with
      | none => true
      | some c => getD r "class" JVal.null == JVal.num (c : ℚ))

/-- The filtered set: dataset records surviving the filter, in order. -/
def filteredOf (data : List Record) (q : TSQuery) : List Record :=
  data.filter (keep q)

/-- One output point.  Minute-mode points carry no `sample_count`;
hour/day points do. -/
structure Point : Type where
  timestamp : JVal
  values : List (String × JVal)
  sample_count : Option Nat
deriving DecidableEq, Repr

/-- The successful response body of the time-series endpoint. -/
structure TSResult : Type where
  well_id : Int
  aggregation : Agg
  count : Nat
  total_filtered : Nat
  points : List Point
deriving DecidableEq, Repr

/-- Keys excluded from `values` in every aggregation mode. -/
def excludedKeys : List String := ["timestamp", "well_id", "class"]

/-- Minute mode: for each of the first `limit` filtered records emit
`{timestamp: r["timestamp"], values: all other fields}`.  The direct
subscript `r["timestamp"]` raises `KeyError` when the key is absent,
modelled by `none`. -/
def minutePoints (filtered : List Record) (limit : Nat) : Option (List Point) :=
  (filtered.take limit).mapM (fun r =>
    match List.lookup "timestamp" r with
    | none => none
    | some ts =>
        some { timestamp := ts
               values := r.filter (fun p => !(p.1 ∈ excludedKeys))
               sample_count := none })

/-- The bucket key of a record: hour mode `ts[:13] + ":00:00"`, day mode
`ts[:10] + " 00:00:00"` (the `minute` branch of the `if` chain is dead in
the Python code and returns `ts` unchanged). -/
def keyOf (agg : Agg) (r : Record) : String :=
  let ts := tsOf r
  match agg with
  | Agg.hour => String.mk (ts.data.take 13 ++ ":00:00".data)
  | Agg.day => String.mk (ts.data.take 10 ++ " 00:00:00".data)
  | Agg.minute => ts

/-- Python `sorted` on a list of strings: sort ascending by the
code-point lexicographic order Python uses on strings.  (The keys sorted
by the handler are distinct, so the sorting algorithm is immaterial;
insertion sort is used here.) -/
def sortKeys (l : List String) : List String :=
  List.insertionSort (fun a b => a.data ≤ b.data) l

/-- Append one value to a `defaultdict(list)` entry, creating it at the
end if absent. -/
def ddAppend (m : List (String × List ℚ)) (k : String) (q : ℚ) :
    List (String × List ℚ) :=
  match m with
  | [] => [(k, [q])]
  | (k₁, vs) :: rest =>
      if k₁ = k then (k₁, vs ++ [q]) :: rest else (k₁, vs) :: ddAppend rest k q

/-- The `sensor_vals` accumulation of one bucket: for each row and each
field not in `excludedKeys`, append the value when it is a non-null
number (`isinstance(v, (int, float))`). -/
def sensorVals (rows : List Record) : List (String × List ℚ) :=
  rows.foldl (fun m r =>
    r.foldl (fun m p =>
      if p.1 ∈ excludedKeys then m
      else
        match p.2 with
        | JVal.num q => ddAppend m p.1 q
        | _ => m) m) []

/-- Python `round(x, 2)` over `ℚ`: round `100 * x` to the nearest integer
and divide back.  (Binary-float tie behaviour is not modelled; no property
below exercises a tie.) -/
def round2 (q : ℚ) : ℚ := ((round (q * 100) : ℤ) : ℚ) / 100

/-- The `aggregated` dict of one bucket: per-field mean of the collected
numeric values, rounded to 2 decimals, keeping only non-empty fields. -/
def aggregatedOf (rows : List Record) : List (String × JVal) :=
  (sensorVals rows).filterMap (fun p =>
    if p.2 = [] then none
    else some (p.1, JVal.num (round2 (p.2.sum / (p.2.length : ℚ)))))

/-- The bucket rows of one key: filtered records mapped to that key, in
filtered order (what `defaultdict(list)` grouping collects). -/
def groupRows (agg : Agg) (filtered : List Record) (key : String) : List Record :=
  filtered.filter (fun r => keyOf agg r == key)

/-- The distinct bucket keys of the filtered set. -/
def bucketKeys (agg : Agg) (filtered : List Record) : List String :=
  (filtered.map (keyOf agg)).dedup

/-- Hour/day mode: one point per bucket key, keys sorted ascending and
truncated to `limit`; each point holds the bucket key, the per-field
rounded means and the bucket row count. -/
def bucketPoints (agg : Agg) (limit : Nat) (filtered : List Record) : List Point :=
  ((sortKeys (bucketKeys agg filtered)).take limit).map (fun key =>
    let rows := groupRows agg filtered key
    { timestamp := JVal.str key
      values := aggregatedOf rows
      sample_count := some rows.length })

/-- The `/api/well/timeseries` handler on an in-memory dataset.  `none`
models an uncaught exception (HTTP 500); every successful return is
`some` of the response body. -/
def timeseries (data : List Record) (q : TSQuery) : Option TSResult :=
  let filtered := filteredOf data q
  if filtered.isEmpty then
    some { well_id := q.well_id
           aggregation := q.aggregation
           count := 0
           total_filtered := 0
           points := [] }
  else
    match q.aggregation with
    | Agg.minute =>
        (minutePoints filtered q.limit).map (fun pts =>
          { well_id := q.well_id
            aggregation := q.aggregation
            count := pts.length
            total_filtered := filtered.length
            points := pts })
    | agg =>
        let pts := bucketPoints agg q.limit filtered
        some { well_id := q.well_id
               aggregation := q.aggregation
               count := pts.length
               total_filtered := filtered.length
               points := pts }

/-! ### Concrete datasets used in examples and counterexamples -/

/-- First record of the hour-aggregation example. -/
def exRec1 : Record :=
  [("well_id", JVal.num 1), ("timestamp", JVal.str "2021-01-01 10:15:00"),
   ("class", JVal.num 0), ("p_pdg", JVal.num 10)]

/-- Second record of the hour-aggregation example. -/
def exRec2 : Record :=
  [("well_id", JVal.num 1), ("timestamp", JVal.str "2021-01-01 10:45:00"),
   ("class", JVal.num 0), ("p_pdg", JVal.num 20)]

/-- Request `well_id=1, aggregation=hour` with all optional filters unset
and the default `limit=100`. -/
def exHourQuery : TSQuery :=
  { well_id := 1, start_time := none, end_time := none, class_id := none
    aggregation := Agg.hour, limit := 100 }

/-- C2: the two-record dataset with `aggregation=hour` yields exactly one
point `{timestamp: "2021-01-01 10:00:00", values: {p_pdg: 15.0},
sample_count: 2}` (and `count 1`, `total_filtered 2`). -/
theorem spec_C2_hour_aggregation_example :
    timeseries [exRec1, exRec2] exHourQuery =
      some { well_id := 1, aggregation := Agg.hour, count := 1, total_filtered := 2
             points := [{ timestamp := JVal.str "2021-01-01 10:00:00"
                          values := [("p_pdg", JVal.num 15)]
                          sample_count := some 2 }] } := by
  have h15 : round2 (([10, 20] : List ℚ).sum / ((([10, 20] : List ℚ).length : ℕ) : ℚ)) = 15 := by
    norm_num [round2, List.sum_cons, List.sum_nil]
  have h1 : timeseries [exRec1, exRec2] exHourQuery =
      some { well_id := 1, aggregation := Agg.hour, count := 1, total_filtered := 2
             points := [{ timestamp := JVal.str "2021-01-01 10:00:00"
                          values := [("p_pdg", JVal.num (round2 (([10, 20] : List ℚ).sum /
                            ((([10, 20] : List ℚ).length : ℕ) : ℚ))))]
                          sample_count := some 2 }] } := rfl
  rw [h1, h15]

/-- The handler on an empty filtered set (shared computation lemma). -/
theorem timeseries_of_empty (data : List Record) (q : TSQuery)
    (h : filteredOf data q = []) :
    timeseries data q =
      some { well_id := q.well_id, aggregation := q.aggregation
             count := 0, total_filtered := 0, points := [] } := by
  simp only [timeseries, h, List.isEmpty_nil, if_true]

/-- C7: an empty filtered set short-circuits: the response is
`{well_id, aggregation, count: 0, total_filtered: 0, points: []}` for
every aggregation mode and limit. -/
theorem spec_C7_empty_short_circuit (data : List Record) (q : TSQuery)
    (h : filteredOf data q = []) :
    timeseries data q =
      some { well_id := q.well_id, aggregation := q.aggregation
             count := 0, total_filtered := 0, points := [] } :=
  timeseries_of_empty data q h

/-- Hypothesis discharge for `spec_C7_empty_short_circuit` at a concrete
input: a one-record dataset filtered down to nothing by a well-id mismatch. -/
theorem spec_C7_witness :
    filteredOf [exRec1] { exHourQuery with well_id := 2 } = [] ∧
      timeseries [exRec1] { exHourQuery with well_id := 2 } =
        some { well_id := 2, aggregation := Agg.hour
               count := 0, total_filtered := 0, points := [] } :=
  ⟨by decide, spec_C7_empty_short_circuit _ _ (by decide)⟩

/-- C6: every successful response reports `total_filtered` as the size of
the full filtered set (before any `limit` truncation), and `count` as the
length of the returned points list, in every aggregation mode. -/
theorem spec_C6_total_filtered_and_count (data : List Record) (q : TSQuery)
    (res : TSResult) (h : timeseries data q = some res) :
    res.total_filtered = (filteredOf data q).length ∧
      res.count = res.points.length := by
  unfold timeseries at h
  dsimp only at h
  split at h
  · rename_i he
    injection h with h
    subst h
    simp [List.isEmpty_iff.mp he]
  · split at h
    · rcases Option.map_eq_some'.mp h with ⟨pts, hpts, hres⟩
      subst hres
      exact ⟨rfl, rfl⟩
    · injection h with h
      subst h
      exact ⟨rfl, rfl⟩

/-- A record with no sensor fields, used to instantiate hypotheses on
concrete inputs without rational arithmetic. -/
def bareRec : Record :=
  [("well_id", JVal.num 1), ("timestamp", JVal.str "2021-01-01 10:15:00"),
   ("class", JVal.num 0)]

/-- The response of `exHourQuery` on the one-record dataset `[bareRec]`. -/
def bareRes : TSResult :=
  { well_id := 1, aggregation := Agg.hour, count := 1, total_filtered := 1
    points := [{ timestamp := JVal.str "2021-01-01 10:00:00"
                 values := [], sample_count := some 1 }] }

/-- Hypothesis discharge for `spec_C6_total_filtered_and_count` at a
concrete input. -/
theorem spec_C6_witness :
    timeseries [bareRec] exHourQuery = some bareRes ∧
      (bareRes.total_filtered = (filteredOf [bareRec] exHourQuery).length ∧
        bareRes.count = bareRes.points.length) :=
  ⟨by decide, spec_C6_total_filtered_and_count [bareRec] exHourQuery bareRes (by decide)⟩

/-! ### C1: characterization of the filtered set -/

/-- Claim C1's membership predicate, written from the claim's words: the
well id matches, `timestamp >= start_time` when `start_time` is supplied,
`timestamp <= end_time` when `end_time` is supplied (each bound skipped
when not supplied), and the class equals `class_id` when supplied. -/
def specKeepC1 (q : TSQuery) (r : Record) : Bool :=
  (getD r "well_id" JVal.null == JVal.num (q.well_id : ℚ))
  && (match q.start_time with
      | none => true
      | some s => decide (s.data ≤ (tsOf r).data))
  && (match q.end_time with
      | none => true
      | some e => decide ((tsOf r).data ≤ e.data))
  && (match q.class_id with
      | none => true
      | some c => getD r "class" JVal.null == JVal.num (c : ℚ))

/-- The amended membership predicate: identical to `specKeepC1` except
that a bound supplied as the empty string is also skipped, mirroring the
code's Python-truthiness test on the bound. -/
def specKeepC1Amended (q : TSQuery) (r : Record) : Bool :=
  (getD r "well_id" JVal.null == JVal.num (q.well_id : ℚ))
  && (match q.start_time with
      | none => true
      | some s => decide (s = "") || decide (s.data ≤ (tsOf r).data))
  && (match q.end_time with
      | none => true
      | some e => decide (e = "") || decide ((tsOf r).data ≤ e.data))
  && (match q.class_id with
      | none => true
      | some c => getD r "class" JVal.null == JVal.num (c : ℚ))

/-- A record matching well id 1 with a non-empty timestamp. -/
def cexRec : Record :=
  [("well_id", JVal.num 1), ("timestamp", JVal.str "2021-01-01 00:00:00")]

/-- A request whose `end_time` is supplied as the empty string. -/
def cexQuery : TSQuery :=
  { well_id := 1, start_time := none, end_time := some "", class_id := none
    aggregation := Agg.minute, limit := 100 }

/-- C1 as stated is false: with `end_time` supplied as `""`, the record
`cexRec` appears in the filtered set although its timestamp does not
satisfy `timestamp <= end_time` (the code skips a falsy bound). -/
theorem spec_C1_counterexample :
    filteredOf [cexRec] cexQuery = [cexRec] ∧ specKeepC1 cexQuery cexRec = false := by
  decide

/-- The lower-bound test of the filter agrees with the amended spec
reading (`>=` on code points, empty bound skipped). -/
theorem lowBound_eq (s ts : String) :
    (!(strTruthy (some s) && pyLt ts s)) = (decide (s = "") || decide (s.data ≤ ts.data)) := by
  by_cases h0 : s = ""
  · subst h0
    simp [strTruthy]
  · simp only [strTruthy, pyLt, ne_eq, h0, not_false_eq_true, decide_True, decide_False,
      Bool.true_and, Bool.false_or, ← decide_not, not_lt]

/-- The upper-bound test of the filter agrees with the amended spec
reading (`<=` on code points, empty bound skipped). -/
theorem highBound_eq (e ts : String) :
    (!(strTruthy (some e) && pyLt e ts)) = (decide (e = "") || decide (ts.data ≤ e.data)) := by
  by_cases h0 : e = ""
  · subst h0
    simp [strTruthy]
  · simp only [strTruthy, pyLt, ne_eq, h0, not_false_eq_true, decide_True, decide_False,
      Bool.true_and, Bool.false_or, ← decide_not, not_lt]

/-- The filter loop body coincides with the amended membership predicate
on every record. -/
theorem keep_eq_specKeepC1Amended (q : TSQuery) (r : Record) :
    keep q r = specKeepC1Amended q r := by
  unfold keep specKeepC1Amended
  congr 1
  · congr 1
    · congr 1
      cases q.start_time with
      | none => rfl
      | some s => exact lowBound_eq s (tsOf r)
    · cases q.end_time with
      | none => rfl
      | some e => exact highBound_eq e (tsOf r)

/-- C1 as amended: for every dataset whose present timestamps are strings,
the filtered set is exactly the in-order sublist of records whose well id
matches, whose timestamp lies within the supplied non-empty bounds (a
bound supplied as `""` is skipped, like an absent one), and whose class
matches `class_id` when supplied; consequently membership is the stated
iff and original dataset order is preserved. -/
theorem spec_C1_filter_characterization (data : List Record) (q : TSQuery)
    (_hwf : ∀ r ∈ data, tsWF r) :
    filteredOf data q = data.filter (specKeepC1Amended q) ∧
      ∀ r, r ∈ filteredOf data q ↔ r ∈ data ∧ specKeepC1Amended q r = true := by
  have hfe : filteredOf data q = data.filter (specKeepC1Amended q) :=
    List.filter_congr (fun r _ => keep_eq_specKeepC1Amended q r)
  exact ⟨hfe, fun r => by rw [hfe, List.mem_filter]⟩

/-- A request supplying both bounds and a class filter. -/
def boundedQuery : TSQuery :=
  { well_id := 1, start_time := some "2021-01-01 10:30:00"
    end_time := some "2021-12-31 23:59:59", class_id := some 0
    aggregation := Agg.minute, limit := 100 }

/-- Hypothesis discharge for `spec_C1_filter_characterization` at a
concrete input with both bounds and a class filter supplied. -/
theorem spec_C1_witness :
    (∀ r ∈ [exRec1, exRec2], tsWF r) ∧
      (filteredOf [exRec1, exRec2] boundedQuery =
          [exRec1, exRec2].filter (specKeepC1Amended boundedQuery) ∧
        ∀ r, r ∈ filteredOf [exRec1, exRec2] boundedQuery ↔
          r ∈ [exRec1, exRec2] ∧ specKeepC1Amended boundedQuery r = true) :=
  ⟨by decide, spec_C1_filter_characterization [exRec1, exRec2] boundedQuery (by decide)⟩

/-! ### C4 and C9: minute mode -/

/-- The points claim C4 describes for minute mode, written from the
spec's words: one point per record among the first `limit` filtered
records, in filtered order, whose `values` are all fields except
`timestamp`, `well_id` and `class`, passed through verbatim. -/
def specMinutePoints (filtered : List Record) (limit : Nat) : List Point :=
  (filtered.take limit).map (fun r =>
    { timestamp := (List.lookup "timestamp" r).getD JVal.null
      values := r.filter (fun p => !(p.1 ∈ excludedKeys))
      sample_count := none })

/-- When every one of the first `limit` filtered records has a
`timestamp` key, minute-mode emission is total and produces exactly the
pass-through points. -/
theorem minutePoints_eq_some (l : List Record) (limit : Nat)
    (hts : ∀ r ∈ l.take limit, (List.lookup "timestamp" r).isSome) :
    minutePoints l limit = some (specMinutePoints l limit) := by
  unfold minutePoints specMinutePoints
  generalize l.take limit = m at hts ⊢
  induction m with
  | nil => rfl
  | cons r m ih =>
    rcases Option.isSome_iff_exists.mp (hts r (by simp)) with ⟨ts, hlk⟩
    have ihm := ih (fun x hx => hts x (by simp [hx]))
    rw [List.mapM_cons, hlk, ihm]
    simp [List.map_cons, hlk]

/-- The full minute-mode response on a non-empty filtered set whose first
`limit` records all carry a `timestamp` key (shared computation lemma). -/
theorem timeseries_minute_eq (data : List Record) (q : TSQuery)
    (hmin : q.aggregation = Agg.minute)
    (hne : filteredOf data q ≠ [])
    (hts : ∀ r ∈ (filteredOf data q).take q.limit, (List.lookup "timestamp" r).isSome) :
    timeseries data q =
      some { well_id := q.well_id, aggregation := q.aggregation
             count := ((filteredOf data q).take q.limit).length
             total_filtered := (filteredOf data q).length
             points := specMinutePoints (filteredOf data q) q.limit } := by
  have hie : (filteredOf data q).isEmpty = false := by
    simp [List.isEmpty_iff, hne]
  unfold timeseries
  dsimp only
  rw [hie, hmin, minutePoints_eq_some _ _ hts]
  simp [specMinutePoints]

/-- A filtered record with no `timestamp` key at all. -/
def noTsRec : Record := [("well_id", JVal.num 1)]

/-- The default request: `well_id=1, aggregation=minute, limit=100`. -/
def exMinuteQuery : TSQuery :=
  { well_id := 1, start_time := none, end_time := none, class_id := none
    aggregation := Agg.minute, limit := 100 }

/-- The same request with hour aggregation. -/
def noTsHourQuery : TSQuery :=
  { well_id := 1, start_time := none, end_time := none, class_id := none
    aggregation := Agg.hour, limit := 100 }

/-- C4 as stated is false: a non-empty filtered set containing a record
with no `timestamp` key makes the minute-mode request fail (`KeyError`,
surfaced as a 500), so no points are returned at all. -/
theorem spec_C4_counterexample :
    filteredOf [noTsRec] exMinuteQuery ≠ [] ∧
      timeseries [noTsRec] exMinuteQuery = none := by
  decide

/-- C4 as amended: in minute mode, for every non-empty filtered set whose
first `limit` records each have a `timestamp` key, the returned points
are exactly the first `limit` filtered records in filtered order, each
emitted as `{timestamp, values}` with `values` all fields except
`timestamp`, `well_id`, `class`, passed through verbatim. -/
theorem spec_C4_minute_passthrough (data : List Record) (q : TSQuery)
    (hmin : q.aggregation = Agg.minute)
    (hne : filteredOf data q ≠ [])
    (hts : ∀ r ∈ (filteredOf data q).take q.limit, (List.lookup "timestamp" r).isSome) :
    timeseries data q =
      some { well_id := q.well_id, aggregation := q.aggregation
             count := ((filteredOf data q).take q.limit).length
             total_filtered := (filteredOf data q).length
             points := specMinutePoints (filteredOf data q) q.limit } :=
  timeseries_minute_eq data q hmin hne hts

/-- Five records for well 1, in non-chronological order and with a null
and a string sensor value, exercising verbatim pass-through. -/
def fiveRecs : List Record :=
  [[("well_id", JVal.num 1), ("timestamp", JVal.str "2021-01-01 10:05:00"),
    ("class", JVal.num 0), ("p_pdg", JVal.num 10)],
   [("well_id", JVal.num 1), ("timestamp", JVal.str "2021-01-01 10:01:00"),
    ("class", JVal.num 0), ("p_pdg", JVal.null)],
   [("well_id", JVal.num 1), ("timestamp", JVal.str "2021-01-01 10:03:00"),
    ("class", JVal.num 0), ("p_pdg", JVal.str "bad")],
   [("well_id", JVal.num 1), ("timestamp", JVal.str "2021-01-01 10:02:00"),
    ("class", JVal.num 0)],
   [("well_id", JVal.num 1), ("timestamp", JVal.str "2021-01-01 10:04:00"),
    ("class", JVal.num 0), ("qgl", JVal.num 7)]]

/-- The default minute request with `limit = 2`. -/
def fiveRecQuery : TSQuery :=
  { well_id := 1, start_time := none, end_time := none, class_id := none
    aggregation := Agg.minute, limit := 2 }

/-- Hypothesis discharge for `spec_C4_minute_passthrough` at a concrete
input: five filtered records, `limit = 2`. -/
theorem spec_C4_witness :
    (fiveRecQuery.aggregation = Agg.minute ∧
        filteredOf fiveRecs fiveRecQuery ≠ [] ∧
        ∀ r ∈ (filteredOf fiveRecs fiveRecQuery).take fiveRecQuery.limit,
          (List.lookup "timestamp" r).isSome) ∧
      timeseries fiveRecs fiveRecQuery =
        some { well_id := 1, aggregation := Agg.minute
               count := ((filteredOf fiveRecs fiveRecQuery).take fiveRecQuery.limit).length
               total_filtered := (filteredOf fiveRecs fiveRecQuery).length
               points := specMinutePoints (filteredOf fiveRecs fiveRecQuery) fiveRecQuery.limit } :=
  ⟨⟨rfl, by decide, by decide⟩,
    spec_C4_minute_passthrough fiveRecs fiveRecQuery rfl (by decide) (by decide)⟩

/-- C9: with a `timestamp` key on each of the first `limit` filtered
records, minute mode is total; without it, the very same record that the
filter and hour mode tolerate (via the empty-string default) makes the
minute-mode request fail. -/
theorem spec_C9_minute_timestamp_partiality (data : List Record) (q : TSQuery)
    (hmin : q.aggregation = Agg.minute)
    (hts : ∀ r ∈ (filteredOf data q).take q.limit, (List.lookup "timestamp" r).isSome) :
    (∃ res, timeseries data q = some res) ∧
      timeseries [noTsRec] exMinuteQuery = none ∧
      noTsRec ∈ filteredOf [noTsRec] exMinuteQuery ∧
      (∃ res, timeseries [noTsRec] noTsHourQuery = some res) := by
  refine ⟨?_, by decide, by decide,
    ⟨⟨1, Agg.hour, 1, 1, [⟨JVal.str ":00:00", [], some 1⟩]⟩, by decide⟩⟩
  by_cases hne : filteredOf data q = []
  · exact ⟨_, timeseries_of_empty data q hne⟩
  · exact ⟨_, timeseries_minute_eq data q hmin hne hts⟩

/-- Hypothesis discharge for `spec_C9_minute_timestamp_partiality` at a
concrete input. -/
theorem spec_C9_witness :
    (exMinuteQuery.aggregation = Agg.minute ∧
        ∀ r ∈ (filteredOf [bareRec] exMinuteQuery).take exMinuteQuery.limit,
          (List.lookup "timestamp" r).isSome) ∧
      ((∃ res, timeseries [bareRec] exMinuteQuery = some res) ∧
        timeseries [noTsRec] exMinuteQuery = none ∧
        noTsRec ∈ filteredOf [noTsRec] exMinuteQuery ∧
        (∃ res, timeseries [noTsRec] noTsHourQuery = some res)) :=
  ⟨⟨rfl, by decide⟩,
    spec_C9_minute_timestamp_partiality [bareRec] exMinuteQuery rfl (by decide)⟩

/-! ### C8: bucket key ordering -/

instance : IsTotal String (fun a b : String => a.data ≤ b.data) :=
  ⟨fun a b => le_total a.data b.data⟩

instance : IsTrans String (fun a b : String => a.data ≤ b.data) :=
  ⟨fun _ _ _ => le_trans⟩

/-- `sortKeys` sorts ascending in the code-point order. -/
theorem sortKeys_sorted (l : List String) :
    List.Sorted (fun a b : String => a.data ≤ b.data) (sortKeys l) :=
  List.sorted_insertionSort _ l

/-- `sortKeys` permutes its input. -/
theorem sortKeys_perm (l : List String) : List.Perm (sortKeys l) l :=
  List.perm_insertionSort _ l

/-- Sorting a duplicate-free key list yields strictly ascending keys. -/
theorem sortKeys_pairwise_lt (l : List String) (h : l.Nodup) :
    List.Pairwise (fun a b : String => a.data < b.data) (sortKeys l) := by
  have hs := sortKeys_sorted l
  have hn : (sortKeys l).Nodup := ((sortKeys_perm l).nodup_iff).mpr h
  exact (List.Pairwise.and hs hn).imp
    (fun hab => lt_of_le_of_ne hab.1 (fun hd => hab.2 (String.toList_inj.mp hd)))

/-- The retained bucket keys (sorted, truncated to `limit`) are strictly
lexicographically ascending. -/
theorem pairwise_taken_keys (agg : Agg) (filtered : List Record) (limit : Nat) :
    List.Pairwise (fun a b : String => a.data < b.data)
      ((sortKeys (bucketKeys agg filtered)).take limit) :=
  (sortKeys_pairwise_lt _ (List.nodup_dedup _)).sublist (List.take_sublist _ _)

/-- C8: in hour/day mode, the point timestamps are exactly the first
`limit` distinct bucket keys in sorted order, and that key sequence is
strictly lexicographically ascending. -/
theorem spec_C8_bucket_key_ordering (data : List Record) (q : TSQuery) (res : TSResult)
    (hagg : q.aggregation = Agg.hour ∨ q.aggregation = Agg.day)
    (h : timeseries data q = some res) :
    res.points.map Point.timestamp =
      ((sortKeys (bucketKeys q.aggregation (filteredOf data q))).take q.limit).map JVal.str ∧
      List.Pairwise (fun a b : String => a.data < b.data)
        ((sortKeys (bucketKeys q.aggregation (filteredOf data q))).take q.limit) := by
  refine ⟨?_, pairwise_taken_keys _ _ _⟩
  unfold timeseries at h
  dsimp only at h
  split at h
  · rename_i he
    injection h with h
    subst h
    simp [List.isEmpty_iff.mp he, bucketKeys, sortKeys]
  · split at h
    · rename_i hm
      rw [hm] at hagg
      rcases hagg with h1 | h1 <;> cases h1
    · injection h with h
      subst h
      simp only [bucketPoints, List.map_map]
      rfl

/-- Two sensor-free records for well 1 in two distinct hours, listed in
non-chronological order. -/
def twoHourRecs : List Record :=
  [[("well_id", JVal.num 1), ("timestamp", JVal.str "2021-01-01 11:20:00"),
    ("class", JVal.num 0)],
   [("well_id", JVal.num 1), ("timestamp", JVal.str "2021-01-01 10:15:00"),
    ("class", JVal.num 0)]]

/-- The hour-mode response on `twoHourRecs`. -/
def twoHourRes : TSResult :=
  { well_id := 1, aggregation := Agg.hour, count := 2, total_filtered := 2
    points := [{ timestamp := JVal.str "2021-01-01 10:00:00"
                 values := [], sample_count := some 1 },
               { timestamp := JVal.str "2021-01-01 11:00:00"
                 values := [], sample_count := some 1 }] }

/-- Hypothesis discharge for `spec_C8_bucket_key_ordering` at a concrete
input whose dataset order is not timestamp order. -/
theorem spec_C8_witness :
    ((exHourQuery.aggregation = Agg.hour ∨ exHourQuery.aggregation = Agg.day) ∧
        timeseries twoHourRecs exHourQuery = some twoHourRes) ∧
      twoHourRes.points.map Point.timestamp =
        ((sortKeys (bucketKeys exHourQuery.aggregation
            (filteredOf twoHourRecs exHourQuery))).take exHourQuery.limit).map JVal.str ∧
      List.Pairwise (fun a b : String => a.data < b.data)
        ((sortKeys (bucketKeys exHourQuery.aggregation
            (filteredOf twoHourRecs exHourQuery))).take exHourQuery.limit) :=
  ⟨⟨Or.inl rfl, by decide⟩,
    spec_C8_bucket_key_ordering twoHourRecs exHourQuery twoHourRes (Or.inl rfl) (by decide)⟩

/-! ### C3: per-bucket field means -/

/-- Lookup with default `[]` in a `defaultdict(list)` model. -/
def lkD (m : List (String × List ℚ)) (k : String) : List ℚ :=
  (List.lookup k m).getD []

/-- Effect of one `defaultdict(list)` append on lookups. -/
theorem lookup_ddAppend (m : List (String × List ℚ)) (k k₂ : String) (q : ℚ) :
    List.lookup k (ddAppend m k₂ q) =
      if k = k₂ then some (lkD m k ++ [q]) else List.lookup k m := by
  induction m with
  | nil =>
    by_cases hk : k = k₂
    · have hb : (k == k₂) = true := beq_iff_eq.mpr hk
      simp [ddAppend, lkD, List.lookup, hk, hb]
    · have hb : (k == k₂) = false := beq_eq_false_iff_ne.mpr hk
      simp [ddAppend, lkD, List.lookup, hk, hb]
  | cons p rest ih =>
    obtain ⟨k₁, vs⟩ := p
    by_cases hk : k = k₁
    · subst hk
      have hb : (k == k) = true := beq_iff_eq.mpr rfl
      by_cases h1 : k = k₂
      · subst h1
        simp [ddAppend, lkD, List.lookup, hb]
      · simp [ddAppend, lkD, List.lookup, hb, if_neg h1]
    · have hb : (k == k₁) = false := beq_eq_false_iff_ne.mpr hk
      by_cases h1 : k₁ = k₂
      · subst h1
        simp [ddAppend, lkD, List.lookup, hb, if_neg hk]
      · simp [ddAppend, lkD, List.lookup, hb, if_neg h1, ih]

/-- The numeric reading of a field value: a number passes, null and
strings do not (`v is not None and isinstance(v, (int, float))`). -/
def numField : JVal → Option ℚ
  | JVal.num q => some q
  | _ => none

/-- One row's contribution to `sensor_vals` (the inner `for k, v in
r.items()` loop of the bucket aggregation). -/
def addRow (m : List (String × List ℚ)) (r : Record) : List (String × List ℚ) :=
  r.foldl (fun m p =>
    if p.1 ∈ excludedKeys then m
    else
      match p.2 with
      | JVal.num q => ddAppend m p.1 q
      | _ => m) m

/-- `sensorVals` is the row-by-row fold of `addRow`. -/
theorem sensorVals_eq_foldl (rows : List Record) :
    sensorVals rows = rows.foldl addRow [] := rfl

/-- The numeric values a single row contributes to field `k`. -/
def rowContribs (r : Record) (k : String) : List ℚ :=
  r.filterMap (fun p =>
    if p.1 = k ∧ ¬ p.1 ∈ excludedKeys then numField p.2 else none)

/-- Unfolding `rowContribs` over the leading item of a row. -/
theorem rowContribs_cons (k₁ : String) (v : JVal) (rest : Record) (k : String) :
    rowContribs ((k₁, v) :: rest) k =
      (if k₁ = k ∧ ¬ k₁ ∈ excludedKeys then (numField v).toList else []) ++
        rowContribs rest k := by
  by_cases hc : k₁ = k ∧ ¬ k₁ ∈ excludedKeys
  · cases v <;>
      simp [rowContribs, List.filterMap_cons, if_pos hc, numField]
  · cases v <;>
      simp [rowContribs, List.filterMap_cons, if_neg hc, numField]

/-- Effect of folding one row into the `sensor_vals` accumulator. -/
theorem lookup_addRow (r : Record) (m : List (String × List ℚ)) (k : String) :
    List.lookup k (addRow m r) =
      if rowContribs r k = [] then List.lookup k m
      else some (lkD m k ++ rowContribs r k) := by
  induction r generalizing m with
  | nil => simp [addRow, rowContribs]
  | cons p rest ih =>
    obtain ⟨k₁, v⟩ := p
    have hstep : addRow m ((k₁, v) :: rest) =
        addRow (if k₁ ∈ excludedKeys then m
                else match v with
                     | JVal.num q => ddAppend m k₁ q
                     | _ => m) rest := rfl
    rw [hstep, rowContribs_cons]
    by_cases hex : k₁ ∈ excludedKeys
    · have hne : ¬ (k₁ = k ∧ ¬ k₁ ∈ excludedKeys) :=
        fun h => h.2 hex
      rw [if_pos hex, if_neg hne, List.nil_append, ih]
    · rw [if_neg hex]
      cases v with
      | num q =>
        by_cases hk : k₁ = k
        · subst hk
          have hc : k₁ = k₁ ∧ ¬ k₁ ∈ excludedKeys := ⟨rfl, hex⟩
          rw [if_pos hc, ih]
          have h2 : List.lookup k₁ (ddAppend m k₁ q) = some (lkD m k₁ ++ [q]) := by
            simp [lookup_ddAppend]
          have h1 : lkD (ddAppend m k₁ q) k₁ = lkD m k₁ ++ [q] := by
            simp [lkD, h2]
          by_cases hre : rowContribs rest k₁ = [] <;>
            simp [hre, h1, h2, numField, lkD]
        · have hne : ¬ (k₁ = k ∧ ¬ k₁ ∈ excludedKeys) := fun h => hk h.1
          rw [if_neg hne, List.nil_append, ih]
          have h2 : List.lookup k (ddAppend m k₁ q) = List.lookup k m := by
            rw [lookup_ddAppend]
            exact if_neg (fun h => hk h.symm)
          have h1 : lkD (ddAppend m k₁ q) k = lkD m k := by
            simp [lkD, h2]
          rw [h1, h2]
      | null =>
        have : (if k₁ = k ∧ ¬ k₁ ∈ excludedKeys then (numField JVal.null).toList else []) = [] := by
          split <;> simp [numField]
        rw [this, List.nil_append, ih]
      | str s =>
        have : (if k₁ = k ∧ ¬ k₁ ∈ excludedKeys then (numField (JVal.str s)).toList else []) = [] := by
          split <;> simp [numField]
        rw [this, List.nil_append, ih]

/-- All numeric values a bucket's rows contribute to field `k`, in
contribution order. -/
def bucketContribs (rows : List Record) (k : String) : List ℚ :=
  rows.flatMap (fun r => rowContribs r k)

/-- Effect of folding a whole bucket into the accumulator. -/
theorem lookup_foldl_addRow (rows : List Record) (m : List (String × List ℚ)) (k : String) :
    List.lookup k (rows.foldl addRow m) =
      if bucketContribs rows k = [] then List.lookup k m
      else some (lkD m k ++ bucketContribs rows k) := by
  induction rows generalizing m with
  | nil => simp [bucketContribs]
  | cons r rows ih =>
    have hbc : bucketContribs (r :: rows) k = rowContribs r k ++ bucketContribs rows k := by
      simp [bucketContribs]
    rw [List.foldl_cons, ih, hbc, lookup_addRow]
    by_cases h1 : rowContribs r k = []
    · have hlk : lkD (addRow m r) k = lkD m k := by
        simp [lkD, lookup_addRow, h1]
      simp [h1, hlk]
    · by_cases h2 : bucketContribs rows k = []
      · simp [h1, h2, lkD, lookup_addRow]
      · have h12 : rowContribs r k ++ bucketContribs rows k ≠ [] := by
          simp [h1]
        simp only [if_neg h1, if_neg h2, if_neg h12]
        have : lkD (addRow m r) k = lkD m k ++ rowContribs r k := by
          simp [lkD, lookup_addRow, if_neg h1]
        rw [this, List.append_assoc]

/-- A field appears in `sensor_vals` iff it has at least one contributing
numeric value, and then it holds exactly those values. -/
theorem lookup_sensorVals (rows : List Record) (k : String) :
    List.lookup k (sensorVals rows) =
      if bucketContribs rows k = [] then none else some (bucketContribs rows k) := by
  rw [sensorVals_eq_foldl, lookup_foldl_addRow]
  by_cases h : bucketContribs rows k = [] <;> simp [h, lkD, List.lookup]

/-- `ddAppend` never creates an empty value list. -/
theorem mem_ddAppend_ne_nil (m : List (String × List ℚ)) (k : String) (q : ℚ)
    (h : ∀ p ∈ m, p.2 ≠ []) : ∀ p ∈ ddAppend m k q, p.2 ≠ [] := by
  induction m with
  | nil =>
    intro p hp
    simp [ddAppend] at hp
    subst hp
    simp
  | cons p₁ rest ih =>
    obtain ⟨k₁, vs⟩ := p₁
    intro p hp
    by_cases h1 : k₁ = k
    · simp only [ddAppend, if_pos h1] at hp
      rcases List.mem_cons.mp hp with h2 | h2
      · subst h2; simp
      · exact h p (List.mem_cons_of_mem _ h2)
    · simp only [ddAppend, if_neg h1] at hp
      rcases List.mem_cons.mp hp with h2 | h2
      · subst h2; exact h (k₁, vs) (List.mem_cons_self _ _)
      · exact ih (fun p' hp' => h p' (List.mem_cons_of_mem _ hp')) p h2

/-- `addRow` preserves the no-empty-entry invariant. -/
theorem mem_addRow_ne_nil (r : Record) (m : List (String × List ℚ))
    (h : ∀ p ∈ m, p.2 ≠ []) : ∀ p ∈ addRow m r, p.2 ≠ [] := by
  induction r generalizing m with
  | nil => exact h
  | cons p₁ rest ih =>
    obtain ⟨k₁, v⟩ := p₁
    have hstep : addRow m ((k₁, v) :: rest) =
        addRow (if k₁ ∈ excludedKeys then m
                else match v with
                     | JVal.num q => ddAppend m k₁ q
                     | _ => m) rest := rfl
    rw [hstep]
    apply ih
    by_cases hex : k₁ ∈ excludedKeys
    · simpa [if_pos hex] using h
    · rw [if_neg hex]
      cases v with
      | num q => exact mem_ddAppend_ne_nil m k₁ q h
      | null => exact h
      | str s => exact h

/-- Folding any rows preserves the no-empty-entry invariant. -/
theorem mem_foldl_addRow_ne_nil (rows : List Record) (m : List (String × List ℚ))
    (h : ∀ p ∈ m, p.2 ≠ []) : ∀ p ∈ rows.foldl addRow m, p.2 ≠ [] := by
  induction rows generalizing m with
  | nil => exact h
  | cons r rows ih => exact ih (addRow m r) (mem_addRow_ne_nil r m h)

/-- Every entry of `sensor_vals` holds at least one value. -/
theorem mem_sensorVals_ne_nil (rows : List Record) :
    ∀ p ∈ sensorVals rows, p.2 ≠ [] := by
  rw [sensorVals_eq_foldl]
  exact mem_foldl_addRow_ne_nil rows [] (by intro p hp; cases hp)

/-- Lookup through the mean-and-round dict comprehension, given the
no-empty-entry invariant. -/
theorem lookup_filterMap_mean (m : List (String × List ℚ)) (k : String)
    (h : ∀ p ∈ m, p.2 ≠ []) :
    List.lookup k (m.filterMap (fun p =>
        if p.2 = [] then none
        else some (p.1, JVal.num (round2 (p.2.sum / (p.2.length : ℚ)))))) =
      (List.lookup k m).map (fun vs => JVal.num (round2 (vs.sum / (vs.length : ℚ)))) := by
  induction m with
  | nil => simp [List.lookup]
  | cons p rest ih =>
    obtain ⟨k₁, vs⟩ := p
    have hne : vs ≠ [] := h (k₁, vs) (List.mem_cons_self _ _)
    rw [List.filterMap_cons]
    simp only [if_neg hne]
    by_cases hk : k = k₁
    · subst hk
      have hb : (k == k) = true := beq_iff_eq.mpr rfl
      simp [List.lookup, hb]
    · have hb : (k == k₁) = false := beq_eq_false_iff_ne.mpr hk
      simp only [List.lookup, hb]
      exact ih (fun p hp => h p (List.mem_cons_of_mem _ hp))

/-- A field is present in a bucket's `values` iff it has a contributing
numeric value, and then it holds the rounded mean of those values. -/
theorem lookup_aggregatedOf (rows : List Record) (k : String) :
    List.lookup k (aggregatedOf rows) =
      if bucketContribs rows k = [] then none
      else some (JVal.num (round2 ((bucketContribs rows k).sum /
        ((bucketContribs rows k).length : ℚ)))) := by
  unfold aggregatedOf
  rw [lookup_filterMap_mean _ _ (mem_sensorVals_ne_nil rows), lookup_sensorVals]
  by_cases h : bucketContribs rows k = [] <;> simp [h]

/-- Claim C3's notion of the contributing values of field `k` in a
bucket, written from the claim's words: the values of that field that
are numeric — null and non-numeric values are skipped. -/
def fieldValues (rows : List Record) (k : String) : List ℚ :=
  rows.flatMap (fun r => r.filterMap (fun p => if p.1 = k then numField p.2 else none))

/-- For a non-excluded field the exclusion test in `rowContribs` is
vacuous. -/
theorem rowContribs_eq_of_not_excluded (r : Record) (k : String)
    (hk : ¬ k ∈ excludedKeys) :
    rowContribs r k = r.filterMap (fun p => if p.1 = k then numField p.2 else none) := by
  induction r with
  | nil => rfl
  | cons p rest ih =>
    rw [rowContribs, List.filterMap_cons, List.filterMap_cons, ← rowContribs, ih]
    by_cases hp : p.1 = k
    · have hc : p.1 = k ∧ ¬ p.1 ∈ excludedKeys := ⟨hp, hp ▸ hk⟩
      rw [if_pos hc, if_pos hp]
    · have hc : ¬ (p.1 = k ∧ ¬ p.1 ∈ excludedKeys) := fun h => hp h.1
      rw [if_neg hc, if_neg hp]

/-- For a non-excluded field the fold's contributions are exactly the
claim's contributing values. -/
theorem bucketContribs_eq_fieldValues (rows : List Record) (k : String)
    (hk : ¬ k ∈ excludedKeys) :
    bucketContribs rows k = fieldValues rows k := by
  unfold bucketContribs fieldValues
  exact List.flatMap_congr (fun r _ => rowContribs_eq_of_not_excluded r k hk)

/-- C3: in hour/day mode, every emitted point is the point of some bucket
key; its `sample_count` counts all bucket rows (records with null or
non-numeric field values included), and for every non-excluded field `k`
its `values` map holds `k` iff the bucket has at least one numeric value
for `k`, in which case it holds the arithmetic mean of exactly those
numeric values rounded to 2 decimals. -/
theorem spec_C3_bucket_field_means (data : List Record) (q : TSQuery) (res : TSResult)
    (hagg : q.aggregation = Agg.hour ∨ q.aggregation = Agg.day)
    (h : timeseries data q = some res)
    (pt : Point) (hpt : pt ∈ res.points) (k : String) (hk : ¬ k ∈ excludedKeys) :
    ∃ key : String,
      pt.timestamp = JVal.str key ∧
      pt.sample_count = some (groupRows q.aggregation (filteredOf data q) key).length ∧
      List.lookup k pt.values =
        (if fieldValues (groupRows q.aggregation (filteredOf data q) key) k = [] then none
         else some (JVal.num (round2
           ((fieldValues (groupRows q.aggregation (filteredOf data q) key) k).sum /
            ((fieldValues (groupRows q.aggregation (filteredOf data q) key) k).length : ℚ))))) := by
  unfold timeseries at h
  dsimp only at h
  split at h
  · injection h with h
    subst h
    simp at hpt
  · split at h
    · rename_i hm
      rw [hm] at hagg
      rcases hagg with h1 | h1 <;> cases h1
    · injection h with h
      subst h
      unfold bucketPoints at hpt
      dsimp only at hpt
      rcases List.mem_map.mp hpt with ⟨key, hkey, heq⟩
      subst heq
      refine ⟨key, rfl, rfl, ?_⟩
      dsimp only
      rw [lookup_aggregatedOf, bucketContribs_eq_fieldValues _ _ hk]

/-- The single point of `bareRes`. -/
def barePt : Point :=
  { timestamp := JVal.str "2021-01-01 10:00:00", values := [], sample_count := some 1 }

/-- Hypothesis discharge for `spec_C3_bucket_field_means` at a concrete
input. -/
theorem spec_C3_witness :
    ((exHourQuery.aggregation = Agg.hour ∨ exHourQuery.aggregation = Agg.day) ∧
        timeseries [bareRec] exHourQuery = some bareRes ∧
        barePt ∈ bareRes.points ∧ ¬ "p_pdg" ∈ excludedKeys) ∧
      (∃ key : String,
        barePt.timestamp = JVal.str key ∧
        barePt.sample_count =
          some (groupRows exHourQuery.aggregation (filteredOf [bareRec] exHourQuery) key).length ∧
        List.lookup "p_pdg" barePt.values =
          (if fieldValues (groupRows exHourQuery.aggregation
                (filteredOf [bareRec] exHourQuery) key) "p_pdg" = [] then none
           else some (JVal.num (round2
             ((fieldValues (groupRows exHourQuery.aggregation
                 (filteredOf [bareRec] exHourQuery) key) "p_pdg").sum /
              ((fieldValues (groupRows exHourQuery.aggregation
                 (filteredOf [bareRec] exHourQuery) key) "p_pdg").length : ℚ)))))) :=
  ⟨⟨Or.inl rfl, by decide, by decide, by decide⟩,
    spec_C3_bucket_field_means [bareRec] exHourQuery bareRes (Or.inl rfl) (by decide)
      barePt (by decide) "p_pdg" (by decide)⟩

/-! ### C10: the statistics class tally -/

/-- The tally key of a record in the statistics handler:
`r.get("class", "unknown")`. -/
def classKey (r : Record) : JVal := getD r "class" (JVal.str "unknown")

/-- One `defaultdict(int)` increment: `classes[key] += 1`. -/
def bumpClass : List (JVal × Nat) → JVal → List (JVal × Nat)
  | [], k => [(k, 1)]
  | (k₁, n) :: rest, k =>
      if k₁ = k then (k₁, n + 1) :: rest else (k₁, n) :: bumpClass rest k

/-- The `classes` tally of the statistics handler. -/
def classesOf (data : List Record) : List (JVal × Nat) :=
  data.foldl (fun m r => bumpClass m (classKey r)) []

/-- Effect of one tally increment on lookups. -/
theorem lookup_bumpClass (m : List (JVal × Nat)) (k k₂ : JVal) :
    List.lookup k (bumpClass m k₂) =
      if k = k₂ then some ((List.lookup k m).getD 0 + 1) else List.lookup k m := by
  induction m with
  | nil =>
    by_cases hk : k = k₂
    · have hb : (k == k₂) = true := beq_iff_eq.mpr hk
      simp [bumpClass, List.lookup, hk, hb]
    · have hb : (k == k₂) = false := beq_eq_false_iff_ne.mpr hk
      simp [bumpClass, List.lookup, hk, hb]
  | cons p rest ih =>
    obtain ⟨k₁, n⟩ := p
    by_cases hk : k = k₁
    · subst hk
      have hb : (k == k) = true := beq_iff_eq.mpr rfl
      by_cases h1 : k = k₂
      · subst h1
        simp [bumpClass, List.lookup, hb]
      · simp [bumpClass, List.lookup, hb, if_neg h1]
    · have hb : (k == k₁) = false := beq_eq_false_iff_ne.mpr hk
      by_cases h1 : k₁ = k₂
      · subst h1
        simp [bumpClass, List.lookup, hb, if_neg hk]
      · simp [bumpClass, List.lookup, hb, if_neg h1, ih]

/-- Folding the whole dataset: each key's tally is the number of records
whose `classKey` equals it. -/
theorem lookup_foldl_bumpClass (data : List Record) (m : List (JVal × Nat)) (k : JVal) :
    List.lookup k (data.foldl (fun m r => bumpClass m (classKey r)) m) =
      (if data.countP (fun r => classKey r == k) = 0 then List.lookup k m
       else some ((List.lookup k m).getD 0 + data.countP (fun r => classKey r == k))) := by
  induction data generalizing m with
  | nil => simp
  | cons r data ih =>
    rw [List.foldl_cons, ih]
    by_cases hr : classKey r = k
    · have hb : (classKey r == k) = true := beq_iff_eq.mpr hr
      have hcnt : (r :: data).countP (fun r => classKey r == k) =
          data.countP (fun r => classKey r == k) + 1 := by
        rw [List.countP_cons]
        simp [hb]
      have hlk : List.lookup k (bumpClass m (classKey r)) =
          some ((List.lookup k m).getD 0 + 1) := by
        rw [lookup_bumpClass, if_pos hr.symm]
      rw [hcnt, if_neg (Nat.succ_ne_zero _), hlk]
      by_cases h0 : data.countP (fun r => classKey r == k) = 0
      · rw [if_pos h0, h0]
      · rw [if_neg h0]
        simp only [Option.getD_some]
        congr 1
        omega
    · have hb : (classKey r == k) = false := beq_eq_false_iff_ne.mpr hr
      have hcnt : (r :: data).countP (fun r => classKey r == k) =
          data.countP (fun r => classKey r == k) := by
        rw [List.countP_cons]
        simp [hb]
      have hlk : List.lookup k (bumpClass m (classKey r)) = List.lookup k m := by
        rw [lookup_bumpClass]
        exact if_neg (fun h => hr h.symm)
      rw [hcnt, hlk]

/-- A key appears in the class tally iff some record maps to it, with the
exact record count. -/
theorem lookup_classesOf (data : List Record) (k : JVal) :
    List.lookup k (classesOf data) =
      (if data.countP (fun r => classKey r == k) = 0 then none
       else some (data.countP (fun r => classKey r == k))) := by
  unfold classesOf
  rw [lookup_foldl_bumpClass]
  by_cases h : data.countP (fun r => classKey r == k) = 0 <;> simp [h, List.lookup]

/-- A record whose `class` field holds the string `"unknown"`. -/
def unkRec : Record := [("class", JVal.str "unknown")]

/-- C10 as stated is false: a record whose `class` key is present with
the string value `"unknown"` is also counted under the tally key
`"unknown"`, not only records with no `class` key at all. -/
theorem spec_C10_counterexample :
    List.lookup "class" unkRec = some (JVal.str "unknown") ∧
      classKey unkRec = JVal.str "unknown" ∧
      List.lookup (JVal.str "unknown") (classesOf [unkRec]) = some 1 := by
  decide

/-- C10 as amended: the tally counts each record under `classKey`; a
record is counted under `"unknown"` iff its `class` key is absent or
holds the string `"unknown"`; a record whose `class` value is null is
counted under the null key, which is distinct from `"unknown"`. -/
theorem spec_C10_class_tally (data : List Record) (k : JVal) :
    (List.lookup k (classesOf data) =
      (if data.countP (fun r => classKey r == k) = 0 then none
       else some (data.countP (fun r => classKey r == k)))) ∧
    (∀ r : Record, classKey r = JVal.str "unknown" ↔
      List.lookup "class" r = none ∨ List.lookup "class" r = some (JVal.str "unknown")) ∧
    (∀ r : Record, List.lookup "class" r = some JVal.null →
      classKey r = JVal.null ∧ classKey r ≠ JVal.str "unknown") := by
  refine ⟨lookup_classesOf data k, ?_, ?_⟩
  · intro r
    unfold classKey getD
    cases hl : List.lookup "class" r with
    | none => simp
    | some v => simp
  · intro r h
    unfold classKey getD
    rw [h]
    simp

/-! ### C5: the dataset loader -/

/-- A full JSON document, as produced by `json.load` on a file that
parses. -/
inductive Json : Type where
  | null : Json
  | num : ℚ → Json
  | str : String → Json
  | arr : List Json → Json
  | obj : List (String × Json) → Json

/-- The `try`/`except` body of `load_data` applied to the outcome of
`json.load` on the file's content: a parse failure raises and is wrapped
in an HTTP 500 whose detail carries the parser's message; a successfully
parsed document is cached and returned with no shape validation at all. -/
def load_data (parsed : Except String Json) : Except String Json :=
  match parsed with
  | Except.ok v => Except.ok v
  | Except.error e => Except.error ("Error loading data: " ++ e)

/-- Claim C5's shape requirement, written from the claim's words: the
document is a JSON array of JSON objects. -/
def isArrayOfObjects : Json → Bool
  | Json.arr l => l.all (fun j => match j with | Json.obj _ => true | _ => false)
  | _ => false

/-- C5 as stated is false: a file holding valid JSON that is not an
array (here the object `{"a": 1}`) loads successfully — `load_data`
performs no array-of-objects validation. -/
theorem spec_C5_counterexample :
    isArrayOfObjects (Json.obj [("a", Json.num 1)]) = false ∧
      load_data (Except.ok (Json.obj [("a", Json.num 1)])) =
        Except.ok (Json.obj [("a", Json.num 1)]) :=
  ⟨rfl, rfl⟩

/-- C5 as amended: the loader fails — with a 500 carrying the parser's
message — exactly when the content does not parse as JSON; every
successfully parsed document, array of objects or not, is returned
unchanged. -/
theorem spec_C5_load_error_iff_parse_error :
    (∀ e, load_data (Except.error e) = Except.error ("Error loading data: " ++ e)) ∧
      (∀ v, load_data (Except.ok v) = Except.ok v) :=
  ⟨fun _ => rfl, fun _ => rfl⟩
